import Mathlib

/-!
Shallow embedding of the fact store (`DataContext`) and path resolver of
`ast/DataContext.go` from the grule rule engine, together with theorems
settling the specification claims about it.

Modelling conventions:
* Go `reflect.Value` / `interface{}` values are both rendered as the
  inductive `GoValue`; `pkg.ValueToInterface` is therefore the identity.
* Go maps are rendered as functions `String → Option GoValue`.
* The `uint64` mutation counter is a `Nat` kept below `2 ^ 64`; the Go
  `++` increment wraps, so it is rendered as `(n + 1) % u64Mod`.
* In-place mutation through a pointer-to-struct fact is rendered by
  returning the updated object and writing it back into the store
  binding (the pure counterpart of Go's aliasing).
* Fallible operations return `Except GruleError`; where Go returns a
  partial value *alongside* an error (multi-return rejection, partial
  trace results) only the error is kept, matching what the claims state.
* A Go runtime panic from an out-of-range slice index is rendered as the
  distinguished error `GruleError.indexOutOfRange`.
* The functions of the repository's `pkg` package are not part of the
  given source; each is modelled from the spec and marked as such.
-/

/-- Runtime kinds, mirroring the `reflect.Kind` values this code compares. -/
inductive GoKind where
  | kInvalid
  | kBool
  | kInt
  | kFloat64
  | kString
  | kInterface
  | kPtr
  | kSlice
  | kStruct
  | kFunc
  deriving DecidableEq, Repr

/-- Runtime type descriptors, mirroring the part of `reflect.Type` the code
uses: the kind of a type, and `Elem()` of pointer and slice types. -/
inductive GoType where
  | tBool
  | tInt
  | tFloat64
  | tString
  | tInterface
  | tPtr (elem : GoType)
  | tSlice (elem : GoType)
  | tStruct
  | tInvalid
  deriving DecidableEq, Repr

/-- `reflect.Type.Kind()`. -/
def GoType.kind : GoType → GoKind
  | .tBool => .kBool
  | .tInt => .kInt
  | .tFloat64 => .kFloat64
  | .tString => .kString
  | .tInterface => .kInterface
  | .tPtr _ => .kPtr
  | .tSlice _ => .kSlice
  | .tStruct => .kStruct
  | .tInvalid => .kInvalid

/-- `reflect.Type.Elem()`: element type of a pointer or slice type.  Go
panics on other kinds; the code only applies it to the (always slice-typed)
final parameter of a variadic method, so the default is unreachable there. -/
def GoType.elem : GoType → GoType
  | .tPtr e => e
  | .tSlice e => e
  | _ => .tInvalid

/-- Go values as seen by the fact store: scalars, pointers and structs.
A struct carries its fields and its method set; a method is recorded as
(name, (declared parameter types, variadic flag, returned values)).  The
returned values of a method are modelled as a fixed list, which is all the
claims about method invocation observe. -/
inductive GoValue where
  | vNil
  | vBool (b : Bool)
  | vInt (n : Int)
  | vString (s : String)
  | vPtr (elem : GoValue)
  | vStruct (fields : List (String × GoValue))
      (methods : List (String × (List GoType × Bool × List GoValue)))

/-- `reflect.Value.Kind()`; `reflect.ValueOf(nil)` has kind `Invalid`. -/
def GoValue.kind : GoValue → GoKind
  | .vNil => .kInvalid
  | .vBool _ => .kBool
  | .vInt _ => .kInt
  | .vString _ => .kString
  | .vPtr _ => .kPtr
  | .vStruct _ _ => .kStruct

/-- Kind of the value a pointer points at (`objVal.Elem().Kind()`); `Add`
only evaluates this after establishing the kind is `Ptr`. -/
def GoValue.elemKind : GoValue → GoKind
  | .vPtr e => e.kind
  | _ => .kInvalid

/-- `reflect.TypeOf` on the modelled values. -/
def GoValue.typeOf : GoValue → GoType
  | .vNil => .tInvalid
  | .vBool _ => .tBool
  | .vInt _ => .tInt
  | .vString _ => .tString
  | .vPtr e => .tPtr e.typeOf
  | .vStruct _ _ => .tStruct

/-- The error outcomes of the fact store and path resolver.  Each
constructor corresponds to one `fmt.Errorf` site (or, for
`indexOutOfRange`, to a Go runtime panic on slice indexing). -/
inductive GruleError where
  | invalidFactKind (kind : GoKind)
  | factNotFound (name : String)
  | factRetracted
  | attributeNotFound (name : String)
  | typeMismatch (name : String)
  | noAttributePathSpecified
  | noFunctionPathSpecified
  | paramTypesFetchError (name : String)
  | argumentCountMismatch (name : String) (need got : Nat)
  | argumentTypeMismatch (name : String) (idx : Nat) (variadic : Bool)
  | invokeError (name : String)
  | multipleReturnValue (name : String)
  | indexOutOfRange
  deriving DecidableEq, Repr

/-- Both `noAttributePathSpecified` and `noFunctionPathSpecified` are the
spec's `NoPathSpecified` error kind. -/
def GruleError.isNoPathSpecified : GruleError → Bool
  | .noAttributePathSpecified => true
  | .noFunctionPathSpecified => true
  | _ => false

/-- Splitting a character list at every dot, accumulator holding the
current (reversed) segment: the engine of `strings.Split(s, ".")`. -/
def splitDotAux : List Char → List Char → List String
  | [], acc => [String.mk acc.reverse]
  | c :: rest, acc =>
      if c = '.' then String.mk acc.reverse :: splitDotAux rest []
      else splitDotAux rest (c :: acc)

/-- Go's `strings.Split(s, ".")`: the segments of `s` between dots; the
result is never empty (the empty string splits to `[""]`). -/
def splitOnDot (s : String) : List String :=
  splitDotAux s.toList []

/-- `2 ^ 64`, the modulus of Go's `uint64` arithmetic. -/
def u64Mod : Nat := 2 ^ 64

/-- The fact store of `DataContext.go`: named bindings, the retraction
list, the `uint64` mutation counter and the completion flag. -/
structure DataContext where
  ObjectStore : String → Option GoValue
  retracted : List String
  variableChangeCount : Nat
  complete : Bool

/-- `NewDataContext`. -/
def NewDataContext : DataContext :=
  { ObjectStore := fun _ => none
    retracted := []
    variableChangeCount := 0
    complete := false }

/-- `DataContext.Complete`. -/
def DataContext.Complete (ctx : DataContext) : DataContext :=
  { ctx with complete := true }

/-- `DataContext.IsComplete`. -/
def DataContext.IsComplete (ctx : DataContext) : Bool :=
  ctx.complete

/-- `DataContext.ResetVariableChangeCount`. -/
def DataContext.ResetVariableChangeCount (ctx : DataContext) : DataContext :=
  { ctx with variableChangeCount := 0 }

/-- `DataContext.IncrementVariableChangeCount`: a wrapping `uint64` `++`. -/
def DataContext.IncrementVariableChangeCount (ctx : DataContext) : DataContext :=
  { ctx with variableChangeCount := (ctx.variableChangeCount + 1) % u64Mod }

/-- `DataContext.HasVariableChange`: `variableChangeCount > 0`. -/
def DataContext.HasVariableChange (ctx : DataContext) : Bool :=
  decide (0 < ctx.variableChangeCount)

/-- `DataContext.Add`: only a pointer to a struct may be inserted. -/
def DataContext.Add (ctx : DataContext) (key : String) (obj : GoValue) :
    Except GruleError Unit × DataContext :=
  if obj.kind ≠ GoKind.kPtr ∨ obj.elemKind ≠ GoKind.kStruct then
    (.error (.invalidFactKind obj.kind), ctx)
  else
    (.ok (), { ctx with
      ObjectStore := fun k => if k = key then some obj else ctx.ObjectStore k })

/-- `DataContext.Retract`: appends the key to the retracted list. -/
def DataContext.Retract (ctx : DataContext) (key : String) : DataContext :=
  { ctx with retracted := ctx.retracted ++ [key] }

/-- `DataContext.IsRetracted`: linear scan of the retracted list. -/
def DataContext.IsRetracted (ctx : DataContext) (key : String) : Bool :=
  ctx.retracted.any (fun v => v == key)

/-- `DataContext.Retracted`. -/
def DataContext.Retracted (ctx : DataContext) : List String :=
  ctx.retracted

/-- `DataContext.Reset`: clears the retracted list. -/
def DataContext.Reset (ctx : DataContext) : DataContext :=
  { ctx with retracted := [] }

/-- `DataContext.ResetAllFiledZero` (sic): full teardown. -/
def DataContext.ResetAllFiledZero (_ctx : DataContext) : DataContext :=
  { ObjectStore := fun _ => none
    retracted := []
    variableChangeCount := 0
    complete := false }

/-- Modelled from the spec: `pkg.ValueToInterface` converts a
`reflect.Value` to the `interface{}` it holds; both are `GoValue` here, so
this is the identity. -/
def valueToInterface (v : GoValue) : GoValue := v

/-- Modelled from the spec: `pkg.GetAttributeValue` reads the named
field's live value from a struct (through a pointer if needed) and fails
with `AttributeNotFound` if there is no accessible field of that name. -/
def getAttributeValue : GoValue → String → Except GruleError GoValue
  | .vPtr inner, field => getAttributeValue inner field
  | .vStruct fields _, field =>
      match fields.lookup field with
      | some v => .ok v
      | none => .error (.attributeNotFound field)
  | _, field => .error (.attributeNotFound field)

/-- Modelled from the spec: `pkg.GetAttributeType` reads the named field's
type; in this model it is the runtime type of the field's value. -/
def getAttributeType (obj : GoValue) (field : String) : Except GruleError GoType :=
  match getAttributeValue obj field with
  | .ok v => .ok v.typeOf
  | .error e => .error e

/-- Replace the value bound to `field` in a struct's field list. -/
def updateField (fields : List (String × GoValue)) (field : String)
    (v : GoValue) : List (String × GoValue) :=
  fields.map (fun p => if p.1 = field then (p.1, v) else p)

/-- Modelled from the spec: `pkg.SetAttributeValue` performs a
type-checked write of the supplied value into the named field, failing
with `TypeMismatch` when the new value's runtime kind is not assignable
(here: differs from the current field value's kind) and with
`AttributeNotFound` on a missing field; the write through a pointer
mutates the pointed-at struct, rendered by returning the updated object. -/
def setAttributeValue : GoValue → String → GoValue → Except GruleError GoValue
  | .vPtr inner, field, newValue =>
      match setAttributeValue inner field newValue with
      | .ok upd => .ok (.vPtr upd)
      | .error e => .error e
  | .vStruct fields methods, field, newValue =>
      match fields.lookup field with
      | some old =>
          if old.kind = newValue.kind then
            .ok (.vStruct (updateField fields field newValue) methods)
          else .error (.typeMismatch field)
      | none => .error (.attributeNotFound field)
  | _, field, _ => .error (.attributeNotFound field)

/-- Modelled from the spec: `pkg.GetFunctionParameterTypes` returns the
declared parameter types and variadic flag of the named method, finding
methods through a pointer receiver; `none` renders its error. -/
def getFunctionParameterTypes : GoValue → String → Option (List GoType × Bool)
  | .vPtr inner, fname => getFunctionParameterTypes inner fname
  | .vStruct _ methods, fname =>
      match methods.lookup fname with
      | some (types, variad, _) => some (types, variad)
      | none => none
  | _, _ => none

/-- Modelled from the spec: `pkg.InvokeFunction` calls the named method
with the coerced arguments and returns its results; the results are the
fixed list stored in the method's entry, `none` rendering its error. -/
def invokeFunction : GoValue → String → List GoValue → Option (List GoValue)
  | .vPtr inner, fname, args => invokeFunction inner fname args
  | .vStruct _ methods, fname, _ =>
      match methods.lookup fname with
      | some (_, _, rets) => some rets
      | none => none
  | _, _, _ => none

/-- `traceType`: type of the value reached by the path; an empty path
yields `reflect.TypeOf(obj)`. -/
def traceType (obj : GoValue) : List String → Except GruleError GoType
  | [] => .ok obj.typeOf
  | [x] => getAttributeType obj x
  | x :: rest =>
      match getAttributeValue obj x with
      | .ok objVal => traceType (valueToInterface objVal) rest
      | .error e => .error e

/-- `traceValue`: live value reached by the path; an empty path yields
`reflect.ValueOf(obj)`, i.e. the object itself. -/
def traceValue (obj : GoValue) : List String → Except GruleError GoValue
  | [] => .ok obj
  | [x] => getAttributeValue obj x
  | x :: rest =>
      match getAttributeValue obj x with
      | .ok objVal => traceValue (valueToInterface objVal) rest
      | .error e => .error e

/-- `traceSetValue`: traverses all but the last segment as reads and
writes the new value into the final field; the Go in-place mutation
through the pointer chain is rendered by writing the updated object back
along the path and returning the updated root. -/
def traceSetValue (obj : GoValue) : List String → GoValue → Except GruleError GoValue
  | [], _ => .error .noAttributePathSpecified
  | [x], newValue => setAttributeValue obj x newValue
  | x :: rest, newValue =>
      match getAttributeValue obj x with
      | .ok objVal =>
          match traceSetValue objVal rest newValue with
          | .ok upd => setAttributeValue obj x upd
          | .error e => .error e
      | .error e => .error e

/-- The fixed-parameter check loop of `traceMethod`: walks the declared
parameter types with their index, breaking at the variadic slot,
comparing each declared kind with the matching argument's kind and
allowing a mismatch only on an `Interface` ("any") parameter.  Indexing
an absent argument is the Go panic, rendered as `indexOutOfRange`. -/
def checkFixedArgsAux (fname : String) (variad : Bool) (numTypes : Nat)
    (args : List GoValue) : List GoType → Nat → Except GruleError Unit
  | [], _ => .ok ()
  | t :: rest, i =>
      if variad = true ∧ i = numTypes - 1 then .ok ()
      else
        match args[i]? with
        | none => .error .indexOutOfRange
        | some a =>
            if t.kind ≠ a.kind then
              if t.kind = GoKind.kInterface then
                checkFixedArgsAux fname variad numTypes args rest (i + 1)
              else .error (.argumentTypeMismatch fname i false)
            else checkFixedArgsAux fname variad numTypes args rest (i + 1)

/-- The variadic trailing-argument check loop of `traceMethod`: each
argument from the variadic position on must have the variadic element's
kind. -/
def checkVariadicArgsAux (fname : String) (typ : GoKind) :
    List GoValue → Nat → Except GruleError Unit
  | [], _ => .ok ()
  | a :: rest, i =>
      if a.kind ≠ typ then .error (.argumentTypeMismatch fname i true)
      else checkVariadicArgsAux fname typ rest (i + 1)

/-- The variadic stage of `traceMethod`: for a variadic method, fetch the
element kind of the (slice-typed) final parameter and check every
trailing argument; `types[len(types)-1]` on an empty list is the Go
panic. -/
def variadicCheck (fname : String) (types : List GoType) (variad : Bool)
    (args : List GoValue) : Except GruleError Unit :=
  if variad = true then
    match types.getLast? with
    | none => .error .indexOutOfRange
    | some lastT =>
        checkVariadicArgsAux fname lastT.elem.kind
          (args.drop (types.length - 1)) (types.length - 1)
  else .ok ()

/-- The invocation tail of `traceMethod`: call the method, then reject
more than one return value (Go also returns `rets[0]` beside that error;
only the error is kept here), propagate a single value, and yield the nil
value when there is none. -/
def invokeStage (obj : GoValue) (fname : String) (args : List GoValue) :
    Except GruleError GoValue :=
  match invokeFunction obj fname args with
  | none => .error (.invokeError fname)
  | some rets =>
      match rets with
      | [] => .ok .vNil
      | [r] => .ok r
      | _ :: _ :: _ => .error (.multipleReturnValue fname)

/-- `traceMethod`: traverses all but the last segment as reads, then
checks argument count, fixed-parameter kinds and variadic trailing kinds
before invoking; all positions of the coerced argument slice hold
`ValueToInterface` of the argument, rendered as `args.map
valueToInterface`. -/
def traceMethod (obj : GoValue) : List String → List GoValue → Except GruleError GoValue
  | [], _ => .error .noFunctionPathSpecified
  | [x], args =>
      match getFunctionParameterTypes obj x with
      | none => .error (.paramTypesFetchError x)
      | some (types, variad) =>
          if types.length ≠ args.length ∧ variad = false then
            .error (.argumentCountMismatch x types.length args.length)
          else
            match checkFixedArgsAux x variad types.length args types 0 with
            | .error e => .error e
            | .ok _ =>
                match variadicCheck x types variad args with
                | .error e => .error e
                | .ok _ => invokeStage obj x (args.map valueToInterface)
  | x :: rest, args =>
      match getAttributeValue obj x with
      | .ok objVal => traceMethod objVal rest args
      | .error e => .error e

/-- `DataContext.ExecMethod`: split the dotted path, look the fact up,
refuse a retracted fact, and delegate to `traceMethod`. -/
def DataContext.ExecMethod (ctx : DataContext) (methodName : String)
    (args : List GoValue) : Except GruleError GoValue × DataContext :=
  match ctx.ObjectStore ((splitOnDot methodName).headD "") with
  | some val =>
      if !(ctx.IsRetracted ((splitOnDot methodName).headD "")) then
        (traceMethod val (splitOnDot methodName).tail args, ctx)
      else (.error .factRetracted, ctx)
  | none => (.error (.factNotFound ((splitOnDot methodName).headD "")), ctx)

/-- `DataContext.GetType`; its not-found error names the whole dotted
path, unlike the other operations. -/
def DataContext.GetType (ctx : DataContext) (varName : String) :
    Except GruleError GoType × DataContext :=
  match ctx.ObjectStore ((splitOnDot varName).headD "") with
  | some val =>
      if !(ctx.IsRetracted ((splitOnDot varName).headD "")) then
        (traceType val (splitOnDot varName).tail, ctx)
      else (.error .factRetracted, ctx)
  | none => (.error (.factNotFound varName), ctx)

/-- `DataContext.GetValue`. -/
def DataContext.GetValue (ctx : DataContext) (varName : String) :
    Except GruleError GoValue × DataContext :=
  match ctx.ObjectStore ((splitOnDot varName).headD "") with
  | some val =>
      if !(ctx.IsRetracted ((splitOnDot varName).headD "")) then
        (traceValue val (splitOnDot varName).tail, ctx)
      else (.error .factRetracted, ctx)
  | none => (.error (.factNotFound ((splitOnDot varName).headD "")), ctx)

/-- `DataContext.SetValue`: on a successful write the mutated fact is
written back to its binding (Go mutates it in place through the pointer)
and the wrapping `uint64` mutation counter is incremented. -/
def DataContext.SetValue (ctx : DataContext) (varName : String)
    (newValue : GoValue) : Except GruleError Unit × DataContext :=
  match ctx.ObjectStore ((splitOnDot varName).headD "") with
  | some val =>
      if !(ctx.IsRetracted ((splitOnDot varName).headD "")) then
        match traceSetValue val (splitOnDot varName).tail newValue with
        | .ok updated =>
            (.ok (), { ctx with
              ObjectStore := fun k =>
                if k = (splitOnDot varName).headD "" then some updated
                else ctx.ObjectStore k
              variableChangeCount := (ctx.variableChangeCount + 1) % u64Mod })
        | .error e => (.error e, ctx)
      else (.error .factRetracted, ctx)
  | none => (.error (.factNotFound ((splitOnDot varName).headD "")), ctx)

/-- Whether a `SetValue` call succeeds on the given store and inputs. -/
def setValueOk (ctx : DataContext) (varName : String) (newValue : GoValue) : Bool :=
  match (ctx.SetValue varName newValue).1 with
  | .ok _ => true
  | .error _ => false

/-! ### Basic state lemmas -/

theorem getValue_snd (ctx : DataContext) (s : String) : (ctx.GetValue s).2 = ctx := by
  unfold DataContext.GetValue
  split
  · split <;> rfl
  · rfl

theorem getType_snd (ctx : DataContext) (s : String) : (ctx.GetType s).2 = ctx := by
  unfold DataContext.GetType
  split
  · split <;> rfl
  · rfl

theorem execMethod_snd (ctx : DataContext) (s : String) (args : List GoValue) :
    (ctx.ExecMethod s args).2 = ctx := by
  unfold DataContext.ExecMethod
  split
  · split <;> rfl
  · rfl

theorem setValue_cases (ctx : DataContext) (s : String) (v : GoValue) :
    ((ctx.SetValue s v).1 = .ok ()
      ∧ (ctx.SetValue s v).2.variableChangeCount
          = (ctx.variableChangeCount + 1) % u64Mod
      ∧ (ctx.SetValue s v).2.retracted = ctx.retracted
      ∧ (ctx.SetValue s v).2.complete = ctx.complete)
    ∨ ((∃ e, (ctx.SetValue s v).1 = .error e) ∧ (ctx.SetValue s v).2 = ctx) := by
  unfold DataContext.SetValue
  split
  · split
    · split
      · exact Or.inl ⟨rfl, rfl, rfl, rfl⟩
      · exact Or.inr ⟨⟨_, rfl⟩, rfl⟩
    · exact Or.inr ⟨⟨_, rfl⟩, rfl⟩
  · exact Or.inr ⟨⟨_, rfl⟩, rfl⟩

theorem setValueOk_iff (ctx : DataContext) (s : String) (v : GoValue) :
    setValueOk ctx s v = true ↔ (ctx.SetValue s v).1 = .ok () := by
  unfold setValueOk
  cases h : (ctx.SetValue s v).1 with
  | ok u => cases u; simp [h]
  | error e => simp [h]

theorem isRetracted_retract_self (ctx : DataContext) (name : String) :
    (ctx.Retract name).IsRetracted name = true := by
  simp [DataContext.Retract, DataContext.IsRetracted]

theorem isRetracted_reset (ctx : DataContext) (k : String) :
    (ctx.Reset).IsRetracted k = false := by
  simp [DataContext.Reset, DataContext.IsRetracted]

/-! ### Claim C3: operations on an absent fact -/

/-- C3: for every path whose first segment names a fact never added to the
store (and not retracted), `GetValue`, `SetValue`, `ExecMethod` and
`GetType` return a `FactNotFound` error and leave the fact store's state
unchanged (`GetType`'s error names the whole path, the others the first
segment). -/
theorem c3_fact_not_found (ctx : DataContext) (s : String) (nv : GoValue)
    (args : List GoValue)
    (habs : ctx.ObjectStore ((splitOnDot s).headD "") = none)
    (hnr : ctx.IsRetracted ((splitOnDot s).headD "") = false) :
    ((ctx.GetValue s).1 = .error (.factNotFound ((splitOnDot s).headD ""))
      ∧ (ctx.GetValue s).2 = ctx)
    ∧ ((ctx.GetType s).1 = .error (.factNotFound s)
      ∧ (ctx.GetType s).2 = ctx)
    ∧ ((ctx.SetValue s nv).1 = .error (.factNotFound ((splitOnDot s).headD ""))
      ∧ (ctx.SetValue s nv).2 = ctx)
    ∧ ((ctx.ExecMethod s args).1 = .error (.factNotFound ((splitOnDot s).headD ""))
      ∧ (ctx.ExecMethod s args).2 = ctx) := by
  unfold DataContext.GetValue DataContext.GetType DataContext.SetValue
    DataContext.ExecMethod
  rw [habs]
  exact ⟨⟨rfl, rfl⟩, ⟨rfl, rfl⟩, ⟨rfl, rfl⟩, ⟨rfl, rfl⟩⟩

/-- A fact store with no binding at all, used by witnesses. -/
def emptyCtx : DataContext :=
  { ObjectStore := fun _ => none
    retracted := []
    variableChangeCount := 0
    complete := false }

/-- Witness for C3 at the empty store and path `"User.Name"`. -/
theorem c3_fact_not_found_witness :
    emptyCtx.ObjectStore ((splitOnDot "User.Name").headD "") = none
    ∧ (emptyCtx.GetValue "User.Name").1 = .error (.factNotFound "User")
    ∧ (emptyCtx.GetType "User.Name").1 = .error (.factNotFound "User.Name")
    ∧ (emptyCtx.SetValue "User.Name" (.vString "z")).2 = emptyCtx :=
  ⟨rfl,
    ((c3_fact_not_found emptyCtx "User.Name" (.vString "z") [] rfl rfl).1.1).trans
      (by rfl),
    ((c3_fact_not_found emptyCtx "User.Name" (.vString "z") [] rfl rfl).2.1.1),
    ((c3_fact_not_found emptyCtx "User.Name" (.vString "z") [] rfl rfl).2.2.1.2)⟩

/-! ### Claim C4: Add accepts exactly pointers to structs -/

/-- C4: `Add` returns an `InvalidFactKind` error exactly when the object
is not a pointer to a struct, creating no binding in that case; a pointer
to a struct is stored under the name, overwriting any prior binding. -/
theorem c4_add_invalid_fact_kind (ctx : DataContext) (key : String) (obj : GoValue) :
    ((obj.kind ≠ GoKind.kPtr ∨ obj.elemKind ≠ GoKind.kStruct)
        ↔ (ctx.Add key obj).1 = .error (.invalidFactKind obj.kind))
    ∧ ((ctx.Add key obj).1 = .error (.invalidFactKind obj.kind)
        → (ctx.Add key obj).2 = ctx)
    ∧ (obj.kind = GoKind.kPtr ∧ obj.elemKind = GoKind.kStruct →
        (ctx.Add key obj).1 = .ok ()
        ∧ ∀ k, (ctx.Add key obj).2.ObjectStore k
            = if k = key then some obj else ctx.ObjectStore k) := by
  by_cases h : obj.kind ≠ GoKind.kPtr ∨ obj.elemKind ≠ GoKind.kStruct
  · have h1 : ctx.Add key obj = (.error (.invalidFactKind obj.kind), ctx) := by
      unfold DataContext.Add
      rw [if_pos h]
    refine ⟨⟨fun _ => by rw [h1], fun _ => h⟩, fun _ => by rw [h1], fun hpos => ?_⟩
    rcases h with h | h
    · exact absurd hpos.1 h
    · exact absurd hpos.2 h
  · push_neg at h
    have h1 : ctx.Add key obj = (.ok (), { ctx with
        ObjectStore := fun k => if k = key then some obj else ctx.ObjectStore k }) := by
      unfold DataContext.Add
      rw [if_neg]
      push_neg
      exact h
    refine ⟨⟨fun hc => ?_, fun hc => ?_⟩, fun hc => ?_, fun _ => ?_⟩
    · rcases hc with hc | hc
      · exact absurd h.1 hc
      · exact absurd h.2 hc
    · rw [h1] at hc
      simp at hc
    · rw [h1] at hc
      simp at hc
    · rw [h1]
      exact ⟨rfl, fun k => rfl⟩

/-- A pointer-to-struct fact used by witnesses. -/
def wFact : GoValue :=
  GoValue.vPtr (GoValue.vStruct [("Name", GoValue.vString "Watson")] [])

/-- Witness for C4: adding a bare integer fails, adding a pointer to a
struct stores the binding. -/
theorem c4_add_invalid_fact_kind_witness :
    (emptyCtx.Add "n" (GoValue.vInt 3)).1
        = .error (.invalidFactKind GoKind.kInt)
    ∧ (emptyCtx.Add "User" wFact).1 = .ok ()
    ∧ (emptyCtx.Add "User" wFact).2.ObjectStore "User" = some wFact :=
  ⟨(c4_add_invalid_fact_kind emptyCtx "n" (GoValue.vInt 3)).1.mp
      (Or.inl (by decide)),
    ((c4_add_invalid_fact_kind emptyCtx "User" wFact).2.2 ⟨rfl, rfl⟩).1,
    (((c4_add_invalid_fact_kind emptyCtx "User" wFact).2.2 ⟨rfl, rfl⟩).2
        "User").trans (by rfl)⟩

/-! ### Claim C7: a path that is only a fact name -/

/-- C7: on a path that is just a fact name (empty remainder), with the
fact present and not retracted, `GetValue` returns the bound object's own
live value and `GetType` its own runtime type, while `SetValue` and
`ExecMethod` fail with the `NoPathSpecified` error kind ("no attribute
path specified" / "no function path specified") and leave the state
unchanged. -/
theorem c7_bare_fact_path (ctx : DataContext) (name s : String)
    (obj nv : GoValue) (args : List GoValue)
    (hsplit : splitOnDot s = [name])
    (hobj : ctx.ObjectStore name = some obj)
    (hnr : ctx.IsRetracted name = false) :
    ((ctx.GetValue s).1 = .ok obj ∧ (ctx.GetValue s).2 = ctx)
    ∧ ((ctx.GetType s).1 = .ok obj.typeOf ∧ (ctx.GetType s).2 = ctx)
    ∧ ((ctx.SetValue s nv).1 = .error .noAttributePathSpecified
      ∧ (ctx.SetValue s nv).2 = ctx)
    ∧ ((ctx.ExecMethod s args).1 = .error .noFunctionPathSpecified
      ∧ (ctx.ExecMethod s args).2 = ctx)
    ∧ GruleError.isNoPathSpecified .noAttributePathSpecified = true
    ∧ GruleError.isNoPathSpecified .noFunctionPathSpecified = true := by
  unfold DataContext.GetValue DataContext.GetType DataContext.SetValue
    DataContext.ExecMethod
  rw [hsplit]
  simp only [List.headD_cons, List.tail_cons, hobj, hnr]
  exact ⟨⟨rfl, rfl⟩, ⟨rfl, rfl⟩, ⟨rfl, rfl⟩, ⟨rfl, rfl⟩, rfl, rfl⟩

/-- A one-fact store with `"User"` bound and nothing retracted. -/
def wStore : String → Option GoValue :=
  fun k => if k = "User" then some wFact else none

/-- A fact store holding only the fact `"User"`. -/
def wCtx : DataContext :=
  { ObjectStore := wStore
    retracted := []
    variableChangeCount := 0
    complete := false }

/-- Witness for C7 on the path `"User"`. -/
theorem c7_bare_fact_path_witness :
    splitOnDot "User" = ["User"]
    ∧ (wCtx.GetValue "User").1 = .ok wFact
    ∧ (wCtx.GetType "User").1 = .ok (GoType.tPtr GoType.tStruct)
    ∧ (wCtx.SetValue "User" (.vString "z")).1 = .error .noAttributePathSpecified
    ∧ (wCtx.ExecMethod "User" []).1 = .error .noFunctionPathSpecified :=
  ⟨rfl,
    (c7_bare_fact_path wCtx "User" "User" wFact (.vString "z") [] rfl rfl rfl).1.1,
    ((c7_bare_fact_path wCtx "User" "User" wFact (.vString "z") [] rfl rfl rfl).2.1.1).trans
      (by rfl),
    (c7_bare_fact_path wCtx "User" "User" wFact (.vString "z") [] rfl rfl rfl).2.2.1.1,
    (c7_bare_fact_path wCtx "User" "User" wFact (.vString "z") [] rfl rfl rfl).2.2.2.1.1⟩

/-! ### Claim C9: Add is atomic on failure -/

/-- C9: whenever `Add` returns an error, the fact store is completely
unchanged — object map, retraction set, mutation counter and completion
flag all keep their prior values. -/
theorem c9_add_atomic_on_failure (ctx : DataContext) (key : String)
    (obj : GoValue) (e : GruleError)
    (herr : (ctx.Add key obj).1 = .error e) :
    (ctx.Add key obj).2 = ctx := by
  by_cases h : obj.kind ≠ GoKind.kPtr ∨ obj.elemKind ≠ GoKind.kStruct
  · unfold DataContext.Add
    rw [if_pos h]
  · unfold DataContext.Add at herr
    rw [if_neg h] at herr
    simp at herr

/-- Witness for C9: adding a plain string value fails and changes
nothing. -/
theorem c9_add_atomic_on_failure_witness :
    (wCtx.Add "s" (GoValue.vString "hi")).1
        = .error (.invalidFactKind GoKind.kString)
    ∧ (wCtx.Add "s" (GoValue.vString "hi")).2 = wCtx :=
  ⟨rfl, c9_add_atomic_on_failure wCtx "s" (GoValue.vString "hi")
      (.invalidFactKind GoKind.kString) rfl⟩

/-! ### Claim C2: operations on a retracted, present fact -/

/-- C2: while a present fact's name is retracted, every path operation
whose first segment is that name returns the `FactRetracted` error and
leaves the whole store — in particular the name's binding — untouched;
after `Reset()` the retraction no longer interferes: each operation again
resolves against the bound object, so it succeeds whenever the path
resolves (and `SetValue` succeeds whenever the write resolves). -/
theorem c2_retracted_ops (ctx : DataContext) (name s : String)
    (obj nv u : GoValue) (args : List GoValue)
    (hr : ctx.IsRetracted name = true)
    (hobj : ctx.ObjectStore name = some obj)
    (hh : (splitOnDot s).headD "" = name) :
    ((ctx.GetValue s).1 = .error .factRetracted ∧ (ctx.GetValue s).2 = ctx)
    ∧ ((ctx.GetType s).1 = .error .factRetracted ∧ (ctx.GetType s).2 = ctx)
    ∧ ((ctx.SetValue s nv).1 = .error .factRetracted ∧ (ctx.SetValue s nv).2 = ctx)
    ∧ ((ctx.ExecMethod s args).1 = .error .factRetracted
      ∧ (ctx.ExecMethod s args).2 = ctx)
    ∧ ((ctx.Reset).GetValue s).1 = traceValue obj (splitOnDot s).tail
    ∧ ((ctx.Reset).GetType s).1 = traceType obj (splitOnDot s).tail
    ∧ ((ctx.Reset).ExecMethod s args).1 = traceMethod obj (splitOnDot s).tail args
    ∧ (traceSetValue obj (splitOnDot s).tail nv = .ok u
      → ((ctx.Reset).SetValue s nv).1 = .ok ()) := by
  have hro : (ctx.Reset).ObjectStore name = some obj := hobj
  have hrr : (ctx.Reset).IsRetracted name = false := isRetracted_reset ctx name
  unfold DataContext.GetValue DataContext.GetType DataContext.SetValue
    DataContext.ExecMethod
  rw [hh, hobj, hr, hro, hrr]
  simp only [Bool.not_true, Bool.not_false, if_false, if_true]
  refine ⟨⟨by trivial, by trivial⟩, ⟨by trivial, by trivial⟩, ⟨by trivial, by trivial⟩,
    ⟨by trivial, by trivial⟩, by trivial, by trivial, by trivial, fun hset => ?_⟩
  rw [hset]

/-- The one-fact store with `"User"` both bound and retracted. -/
def wCtxRetr : DataContext :=
  { ObjectStore := wStore
    retracted := ["User"]
    variableChangeCount := 0
    complete := false }

/-- The `"User"` fact after its `Name` field is overwritten with `"z"`. -/
def wFactZ : GoValue :=
  GoValue.vPtr (GoValue.vStruct [("Name", GoValue.vString "z")] [])

/-- Witness for C2 on the path `"User.Name"` of a retracted fact. -/
theorem c2_retracted_ops_witness :
    wCtxRetr.IsRetracted "User" = true
    ∧ (wCtxRetr.GetValue "User.Name").1 = .error .factRetracted
    ∧ (wCtxRetr.SetValue "User.Name" (.vString "z")).2 = wCtxRetr
    ∧ ((wCtxRetr.Reset).GetValue "User.Name").1 = .ok (.vString "Watson")
    ∧ ((wCtxRetr.Reset).SetValue "User.Name" (.vString "z")).1 = .ok () :=
  ⟨rfl,
    (c2_retracted_ops wCtxRetr "User" "User.Name" wFact (.vString "z") wFactZ []
      rfl rfl rfl).1.1,
    (c2_retracted_ops wCtxRetr "User" "User.Name" wFact (.vString "z") wFactZ []
      rfl rfl rfl).2.2.1.2,
    ((c2_retracted_ops wCtxRetr "User" "User.Name" wFact (.vString "z") wFactZ []
      rfl rfl rfl).2.2.2.2.1).trans (by rfl),
    (c2_retracted_ops wCtxRetr "User" "User.Name" wFact (.vString "z") wFactZ []
      rfl rfl rfl).2.2.2.2.2.2.2 rfl⟩

/-! ### Claim C10: Retract is unconditional on the name -/

/-- C10: `Retract` records any string as retracted, bound or not: after
`Retract(name)`, `IsRetracted(name)` is true; if a fact is then bound to
that name by a successful `Add`, every path operation whose first segment
is the name fails with `FactRetracted`; `Reset()` clears the
retraction. -/
theorem c10_retract_unconditional (ctx : DataContext) (name s : String)
    (obj nv : GoValue) (args : List GoValue) :
    ((ctx.Retract name).IsRetracted name = true)
    ∧ ((splitOnDot s).headD "" = name →
        obj.kind = GoKind.kPtr ∧ obj.elemKind = GoKind.kStruct →
        ((((ctx.Retract name).Add name obj).2.GetValue s).1 = .error .factRetracted
        ∧ ((((ctx.Retract name).Add name obj).2.GetType s).1 = .error .factRetracted)
        ∧ ((((ctx.Retract name).Add name obj).2.SetValue s nv).1 = .error .factRetracted)
        ∧ ((((ctx.Retract name).Add name obj).2.ExecMethod s args).1
            = .error .factRetracted)))
    ∧ ((((ctx.Retract name).Add name obj).2.Reset).IsRetracted name = false) := by
  refine ⟨isRetracted_retract_self ctx name, fun hh hkind => ?_, ?_⟩
  · have hadd : ((ctx.Retract name).Add name obj).2 = { ctx.Retract name with
        ObjectStore := fun k =>
          if k = name then some obj else (ctx.Retract name).ObjectStore k } := by
      unfold DataContext.Add
      rw [if_neg]
      push_neg
      exact hkind
    have hobj : ((ctx.Retract name).Add name obj).2.ObjectStore name = some obj := by
      rw [hadd]
      simp
    have hret : ((ctx.Retract name).Add name obj).2.IsRetracted name = true := by
      rw [hadd]
      exact isRetracted_retract_self ctx name
    unfold DataContext.GetValue DataContext.GetType DataContext.SetValue
      DataContext.ExecMethod
    rw [hh, hobj, hret]
    exact ⟨rfl, rfl, rfl, rfl⟩
  · exact isRetracted_reset _ name

/-- Witness for C10: a name never bound is retracted, a fact added under
it afterwards is inaccessible, and `Reset` clears the retraction. -/
theorem c10_retract_unconditional_witness :
    emptyCtx.ObjectStore "Ghost" = none
    ∧ (emptyCtx.Retract "Ghost").IsRetracted "Ghost" = true
    ∧ (((emptyCtx.Retract "Ghost").Add "Ghost" wFact).2.GetValue "Ghost.Name").1
        = .error .factRetracted
    ∧ ((((emptyCtx.Retract "Ghost").Add "Ghost" wFact).2.Reset).IsRetracted "Ghost")
        = false :=
  ⟨rfl,
    (c10_retract_unconditional emptyCtx "Ghost" "Ghost.Name" wFact
      (.vString "z") []).1,
    ((c10_retract_unconditional emptyCtx "Ghost" "Ghost.Name" wFact
      (.vString "z") []).2.1 rfl ⟨rfl, rfl⟩).1,
    (c10_retract_unconditional emptyCtx "Ghost" "Ghost.Name" wFact
      (.vString "z") []).2.2⟩

/-! ### Operation traces

The claims C1 and C8 quantify over every fact store reachable through the
public operations; `Op` is one public call with its arguments and
`execTrace` runs a call sequence from a fresh `NewDataContext`. -/

/-- One public fact-store call. -/
inductive Op where
  | opAdd (key : String) (obj : GoValue)
  | opRetract (key : String)
  | opReset
  | opComplete
  | opGetValue (v : String)
  | opGetType (v : String)
  | opSetValue (v : String) (nv : GoValue)
  | opExecMethod (m : String) (args : List GoValue)
  | opResetVCC
  | opIncrementVCC

/-- The state reached by one public call (results are discarded). -/
def applyOp (ctx : DataContext) : Op → DataContext
  | .opAdd key obj => (ctx.Add key obj).2
  | .opRetract key => ctx.Retract key
  | .opReset => ctx.Reset
  | .opComplete => ctx.Complete
  | .opGetValue v => (ctx.GetValue v).2
  | .opGetType v => (ctx.GetType v).2
  | .opSetValue v nv => (ctx.SetValue v nv).2
  | .opExecMethod m args => (ctx.ExecMethod m args).2
  | .opResetVCC => ctx.ResetVariableChangeCount
  | .opIncrementVCC => ctx.IncrementVariableChangeCount

/-- The state after a call sequence on a fresh store. -/
def execTrace (t : List Op) : DataContext :=
  List.foldl applyOp NewDataContext t

/-- Whether a call zeroes the mutation counter. -/
def vccIsReset : Op → Bool
  | .opResetVCC => true
  | _ => false

/-- How much a call adds to the mutation counter in state `ctx`: one for
`IncrementVariableChangeCount` and for a successful `SetValue`, else
zero. -/
def vccDelta (ctx : DataContext) : Op → Nat
  | .opSetValue v nv => if setValueOk ctx v nv = true then 1 else 0
  | .opIncrementVCC => 1
  | _ => 0

/-- Number of counter-incrementing calls since the last
`ResetVariableChangeCount`, accumulated along the trace from state
`ctx`. -/
def vccSinceAux (ctx : DataContext) : List Op → Nat → Nat
  | [], acc => acc
  | op :: rest, acc =>
      vccSinceAux (applyOp ctx op) rest
        (if vccIsReset op then 0 else acc + vccDelta ctx op)

/-- Occurrences of a name in a list of strings. -/
def countOcc (name : String) : List String → Nat
  | [] => 0
  | x :: rest => (if x = name then 1 else 0) + countOcc name rest

/-- Number of `Retract(name)` calls since the last `Reset` in the
trace. -/
def retractsSinceAux (name : String) : List Op → Nat → Nat
  | [], acc => acc
  | op :: rest, acc =>
      retractsSinceAux name rest
        (match op with
          | .opRetract k => if k = name then acc + 1 else acc
          | .opReset => 0
          | _ => acc)

/-! ### Counter and retraction-count invariants along traces -/

theorem setValue_vcc_eq (ctx : DataContext) (v : String) (nv : GoValue) :
    (ctx.SetValue v nv).2.variableChangeCount =
      if setValueOk ctx v nv = true then (ctx.variableChangeCount + 1) % u64Mod
      else ctx.variableChangeCount := by
  rcases setValue_cases ctx v nv with ⟨h1, h2, _, _⟩ | ⟨⟨e, h1⟩, h2⟩
  · rw [if_pos ((setValueOk_iff ctx v nv).mpr h1)]
    exact h2
  · have hnot : ¬ setValueOk ctx v nv = true := by
      intro hok
      have hok2 := (setValueOk_iff ctx v nv).mp hok
      rw [hok2] at h1
      exact Except.noConfusion h1
    rw [if_neg hnot, h2]

theorem setValue_retracted_eq (ctx : DataContext) (v : String) (nv : GoValue) :
    (ctx.SetValue v nv).2.retracted = ctx.retracted := by
  rcases setValue_cases ctx v nv with ⟨_, _, h, _⟩ | ⟨_, h⟩
  · exact h
  · rw [h]

theorem add_snd_vcc (ctx : DataContext) (key : String) (obj : GoValue) :
    (ctx.Add key obj).2.variableChangeCount = ctx.variableChangeCount := by
  unfold DataContext.Add
  split <;> rfl

theorem add_snd_retracted (ctx : DataContext) (key : String) (obj : GoValue) :
    (ctx.Add key obj).2.retracted = ctx.retracted := by
  unfold DataContext.Add
  split <;> rfl

theorem vcc_exec_aux (t : List Op) :
    ∀ (ctx : DataContext) (acc : Nat),
      ctx.variableChangeCount = acc % u64Mod →
      (List.foldl applyOp ctx t).variableChangeCount
        = vccSinceAux ctx t acc % u64Mod := by
  induction t with
  | nil => exact fun ctx acc h => h
  | cons op rest ih =>
      intro ctx acc h
      rw [List.foldl_cons]
      unfold vccSinceAux
      apply ih
      cases op with
      | opAdd key obj =>
          show (ctx.Add key obj).2.variableChangeCount = _
          rw [add_snd_vcc, h]
          simp [vccIsReset, vccDelta]
      | opRetract key =>
          show ctx.variableChangeCount = _
          rw [h]
          simp [vccIsReset, vccDelta]
      | opReset =>
          show ctx.variableChangeCount = _
          rw [h]
          simp [vccIsReset, vccDelta]
      | opComplete =>
          show ctx.variableChangeCount = _
          rw [h]
          simp [vccIsReset, vccDelta]
      | opGetValue v =>
          show (ctx.GetValue v).2.variableChangeCount = _
          rw [getValue_snd, h]
          simp [vccIsReset, vccDelta]
      | opGetType v =>
          show (ctx.GetType v).2.variableChangeCount = _
          rw [getType_snd, h]
          simp [vccIsReset, vccDelta]
      | opExecMethod m args =>
          show (ctx.ExecMethod m args).2.variableChangeCount = _
          rw [execMethod_snd, h]
          simp [vccIsReset, vccDelta]
      | opSetValue v nv =>
          show (ctx.SetValue v nv).2.variableChangeCount = _
          rw [setValue_vcc_eq]
          by_cases hok : setValueOk ctx v nv = true
          · rw [if_pos hok, h, Nat.mod_add_mod]
            simp [vccIsReset, vccDelta, hok]
          · rw [if_neg hok, h]
            simp [vccIsReset, vccDelta, hok]
      | opResetVCC =>
          show (0 : Nat) = _
          simp [vccIsReset]
      | opIncrementVCC =>
          show (ctx.variableChangeCount + 1) % u64Mod = _
          rw [h, Nat.mod_add_mod]
          simp [vccIsReset, vccDelta]

theorem countOcc_append (name : String) (l1 l2 : List String) :
    countOcc name (l1 ++ l2) = countOcc name l1 + countOcc name l2 := by
  induction l1 with
  | nil => simp [countOcc]
  | cons x rest ih =>
      rw [List.cons_append]
      show (if x = name then 1 else 0) + countOcc name (rest ++ l2)
        = (if x = name then 1 else 0) + countOcc name rest + countOcc name l2
      rw [ih]
      omega

theorem countOcc_exec_aux (name : String) (t : List Op) :
    ∀ (ctx : DataContext) (acc : Nat),
      countOcc name ctx.retracted = acc →
      countOcc name (List.foldl applyOp ctx t).retracted
        = retractsSinceAux name t acc := by
  induction t with
  | nil => exact fun ctx acc h => h
  | cons op rest ih =>
      intro ctx acc h
      rw [List.foldl_cons]
      unfold retractsSinceAux
      apply ih
      cases op with
      | opAdd key obj =>
          show countOcc name (ctx.Add key obj).2.retracted = acc
          rw [add_snd_retracted]
          exact h
      | opRetract key =>
          show countOcc name (ctx.retracted ++ [key])
            = if key = name then acc + 1 else acc
          rw [countOcc_append, h]
          by_cases hk : key = name
          · rw [if_pos hk]
            simp [countOcc, hk]
          · rw [if_neg hk]
            simp [countOcc, hk]
      | opReset => rfl
      | opComplete => exact h
      | opGetValue v =>
          show countOcc name (ctx.GetValue v).2.retracted = acc
          rw [getValue_snd]
          exact h
      | opGetType v =>
          show countOcc name (ctx.GetType v).2.retracted = acc
          rw [getType_snd]
          exact h
      | opExecMethod m args =>
          show countOcc name (ctx.ExecMethod m args).2.retracted = acc
          rw [execMethod_snd]
          exact h
      | opSetValue v nv =>
          show countOcc name (ctx.SetValue v nv).2.retracted = acc
          rw [setValue_retracted_eq]
          exact h
      | opResetVCC => exact h
      | opIncrementVCC => exact h

theorem any_beq_eq_countOcc (name : String) (l : List String) :
    (l.any (fun v => v == name)) = decide (0 < countOcc name l) := by
  induction l with
  | nil => rfl
  | cons x rest ih =>
      by_cases hx : x = name
      · subst hx
        have h1 : countOcc x (x :: rest) = 1 + countOcc x rest := by
          show (if x = x then 1 else 0) + countOcc x rest = 1 + countOcc x rest
          rw [if_pos rfl]
        rw [h1]
        have h2 : 0 < 1 + countOcc x rest := by omega
        simp [List.any_cons, h2]
      · have hb : (x == name) = false := by
          simp [hx]
        have h1 : countOcc name (x :: rest) = countOcc name rest := by
          show (if x = name then 1 else 0) + countOcc name rest = countOcc name rest
          rw [if_neg hx]
          omega
        rw [h1, List.any_cons, hb]
        simp [ih]

/-! ### Claim C1 (corrected): the mutation counter -/

/-- Counterexample to C1 as stated: the counter is a Go `uint64`, so at
counter value `2 ^ 64 - 1` (reachable in principle by that many
increments) a successful `SetValue` wraps the counter to `0` instead of
incrementing it by one, and the store then reports no variable change. -/
def ctxOverflow : DataContext :=
  { ObjectStore := wStore
    retracted := []
    variableChangeCount := u64Mod - 1
    complete := false }

/-- C1 is refuted at a store whose counter holds `2 ^ 64 - 1`: the
`SetValue` succeeds, yet the counter becomes `0`, not the old value plus
one, and `HasVariableChange` is false after a successful `SetValue`. -/
theorem c1_counter_overflow_cex :
    setValueOk ctxOverflow "User.Name" (GoValue.vString "z") = true
    ∧ ctxOverflow.variableChangeCount = u64Mod - 1
    ∧ (ctxOverflow.SetValue "User.Name" (GoValue.vString "z")).2.variableChangeCount = 0
    ∧ ¬ ((ctxOverflow.SetValue "User.Name" (GoValue.vString "z")).2.variableChangeCount
        = ctxOverflow.variableChangeCount + 1)
    ∧ (ctxOverflow.SetValue "User.Name" (GoValue.vString "z")).2.HasVariableChange
        = false := by
  refine ⟨by decide, rfl, by decide, by decide, by decide⟩

/-- C1 amended: as long as the `uint64` counter does not overflow, each
successful `SetValue` increments the Mutation Counter by exactly one, a
failed `SetValue` leaves it unchanged, `GetValue`, `GetType` and
`ExecMethod` never change it, and — for any sequence of public calls on a
fresh store with fewer than `2 ^ 64` counting events since the last
`ResetVariableChangeCount` — `HasVariableChange` is true exactly when at
least one successful `SetValue` or `IncrementVariableChangeCount` has
occurred since that reset. -/
theorem c1_mutation_counter_amended (ctx : DataContext) (s : String)
    (nv : GoValue) (args : List GoValue) (t : List Op) :
    (setValueOk ctx s nv = true → ctx.variableChangeCount + 1 < u64Mod →
      (ctx.SetValue s nv).2.variableChangeCount = ctx.variableChangeCount + 1)
    ∧ (setValueOk ctx s nv = false →
      (ctx.SetValue s nv).2.variableChangeCount = ctx.variableChangeCount)
    ∧ (ctx.GetValue s).2.variableChangeCount = ctx.variableChangeCount
    ∧ (ctx.GetType s).2.variableChangeCount = ctx.variableChangeCount
    ∧ (ctx.ExecMethod s args).2.variableChangeCount = ctx.variableChangeCount
    ∧ (vccSinceAux NewDataContext t 0 < u64Mod →
        ((execTrace t).HasVariableChange = true
          ↔ 0 < vccSinceAux NewDataContext t 0)) := by
  refine ⟨fun hok hlt => ?_, fun hko => ?_, ?_, ?_, ?_, fun hsmall => ?_⟩
  · rw [setValue_vcc_eq, if_pos hok, Nat.mod_eq_of_lt hlt]
  · rw [setValue_vcc_eq, if_neg (by rw [hko]; exact Bool.false_ne_true)]
  · rw [getValue_snd]
  · rw [getType_snd]
  · rw [execMethod_snd]
  · have h1 : (execTrace t).variableChangeCount
        = vccSinceAux NewDataContext t 0 % u64Mod :=
      vcc_exec_aux t NewDataContext 0 rfl
    rw [Nat.mod_eq_of_lt hsmall] at h1
    unfold DataContext.HasVariableChange
    rw [h1]
    exact decide_eq_true_iff

/-- Witness for the amended C1: on the one-fact store a successful
`SetValue` moves the counter from 0 to 1, and a single increment call on
a fresh store makes `HasVariableChange` true. -/
theorem c1_mutation_counter_amended_witness :
    setValueOk wCtx "User.Name" (GoValue.vString "z") = true
    ∧ wCtx.variableChangeCount + 1 < u64Mod
    ∧ (wCtx.SetValue "User.Name" (GoValue.vString "z")).2.variableChangeCount = 1
    ∧ vccSinceAux NewDataContext [Op.opIncrementVCC] 0 < u64Mod
    ∧ (execTrace [Op.opIncrementVCC]).HasVariableChange = true :=
  ⟨rfl, by decide,
    (c1_mutation_counter_amended wCtx "User.Name" (GoValue.vString "z") []
      [Op.opIncrementVCC]).1 rfl (by decide),
    by decide,
    ((c1_mutation_counter_amended wCtx "User.Name" (GoValue.vString "z") []
      [Op.opIncrementVCC]).2.2.2.2.2 (by decide)).mpr (by decide)⟩

/-! ### Claim C8 (corrected): the retraction list is not duplicate-free -/

/-- Counterexample to C8 as stated: two `Retract("A")` calls on a fresh
store make `Retracted()` hold `"A"` twice — the list is not a set. -/
theorem c8_retracted_duplicates_cex :
    (execTrace [Op.opRetract "A", Op.opRetract "A"]).Retracted = ["A", "A"]
    ∧ ¬ countOcc "A" ((execTrace [Op.opRetract "A", Op.opRetract "A"]).Retracted)
        ≤ 1 :=
  ⟨rfl, by decide⟩

/-- C8 amended: in every store reachable through the public operations,
`Retracted()` contains each name once per `Retract` call with that name
since the last `Reset` — so duplicates occur when `Retract` is repeated —
while membership as reported by `IsRetracted` is still set-like: true
exactly when at least one such call has occurred. -/
theorem c8_retraction_count_amended (t : List Op) (name : String) :
    countOcc name ((execTrace t).Retracted) = retractsSinceAux name t 0
    ∧ (execTrace t).IsRetracted name
        = decide (0 < retractsSinceAux name t 0) := by
  have h1 : countOcc name (execTrace t).retracted = retractsSinceAux name t 0 :=
    countOcc_exec_aux name t NewDataContext 0 rfl
  refine ⟨h1, ?_⟩
  show ((execTrace t).retracted.any (fun v => v == name)) = _
  rw [any_beq_eq_countOcc, h1]

/-! ### The argument-check loops of `traceMethod` -/

theorem checkFixed_pass (fname : String) (variad : Bool) (numTypes : Nat)
    (args : List GoValue) :
    ∀ (ts : List GoType) (i : Nat),
      (∀ j (hj : j < ts.length), ¬(variad = true ∧ i + j = numTypes - 1) →
        ∃ a, args[i + j]? = some a
          ∧ ((ts.get ⟨j, hj⟩).kind = a.kind
            ∨ (ts.get ⟨j, hj⟩).kind = GoKind.kInterface)) →
      checkFixedArgsAux fname variad numTypes args ts i = .ok () := by
  intro ts
  induction ts with
  | nil => intro i _; rfl
  | cons t rest ih =>
      intro i h
      simp only [checkFixedArgsAux]
      by_cases hbreak : variad = true ∧ i = numTypes - 1
      · rw [if_pos hbreak]
      · rw [if_neg hbreak]
        obtain ⟨a, ha, hk⟩ := h 0 (by simp) (by simpa using hbreak)
        rw [Nat.add_zero] at ha
        simp only [ha]
        have hk0 : t.kind = a.kind ∨ t.kind = GoKind.kInterface := by
          simpa using hk
        have hrec : checkFixedArgsAux fname variad numTypes args rest (i + 1)
            = .ok () := by
          apply ih (i + 1)
          intro j hj hb
          have hj1 : j + 1 < (t :: rest).length := by
            simpa using Nat.succ_lt_succ hj
          obtain ⟨a', ha', hk'⟩ := h (j + 1) hj1 (by
            intro hcon
            exact hb ⟨hcon.1, by omega⟩)
          refine ⟨a', ?_, ?_⟩
          · rw [show i + 1 + j = i + (j + 1) from by omega]
            exact ha'
          · simpa using hk'
        by_cases heq : t.kind = a.kind
        · rw [if_neg (not_not_intro heq)]
          exact hrec
        · rw [if_pos heq, if_pos (hk0.resolve_left heq)]
          exact hrec

theorem checkFixed_fail (fname : String) (numTypes : Nat) (args : List GoValue) :
    ∀ (ts : List GoType) (i : Nat),
      (∀ j, j < ts.length → ∃ a, args[i + j]? = some a) →
      (∃ j, ∃ (hj : j < ts.length), ∃ a, args[i + j]? = some a
        ∧ (ts.get ⟨j, hj⟩).kind ≠ a.kind
        ∧ (ts.get ⟨j, hj⟩).kind ≠ GoKind.kInterface) →
      ∃ m, checkFixedArgsAux fname false numTypes args ts i
        = .error (.argumentTypeMismatch fname m false) := by
  intro ts
  induction ts with
  | nil =>
      rintro i _ ⟨j, hj, _⟩
      exact absurd hj (Nat.not_lt_zero j)
  | cons t rest ih =>
      intro i hall hex
      obtain ⟨a, ha⟩ := hall 0 (by simp)
      rw [Nat.add_zero] at ha
      have hshiftall : ∀ j, j < rest.length → ∃ b, args[i + 1 + j]? = some b := by
        intro j hj
        obtain ⟨b, hb⟩ := hall (j + 1) (by simpa using Nat.succ_lt_succ hj)
        refine ⟨b, ?_⟩
        rw [show i + 1 + j = i + (j + 1) from by omega]
        exact hb
      by_cases hfail : t.kind ≠ a.kind ∧ t.kind ≠ GoKind.kInterface
      · refine ⟨i, ?_⟩
        simp only [checkFixedArgsAux]
        rw [if_neg (show ¬(false = true ∧ i = numTypes - 1) from by simp)]
        simp only [ha]
        rw [if_pos hfail.1, if_neg hfail.2]
      · have hpass : t.kind = a.kind ∨ t.kind = GoKind.kInterface := by
          by_cases h1 : t.kind = a.kind
          · exact Or.inl h1
          · refine Or.inr ?_
            by_contra h2
            exact hfail ⟨h1, h2⟩
        have hrec : checkFixedArgsAux fname false numTypes args (t :: rest) i
            = checkFixedArgsAux fname false numTypes args rest (i + 1) := by
          simp only [checkFixedArgsAux]
          rw [if_neg (show ¬(false = true ∧ i = numTypes - 1) from by simp)]
          simp only [ha]
          by_cases heq : t.kind = a.kind
          · rw [if_neg (not_not_intro heq)]
          · rw [if_pos heq, if_pos (hpass.resolve_left heq)]
        rw [hrec]
        apply ih (i + 1) hshiftall
        obtain ⟨j, hj, b, hb, hbk, hbi⟩ := hex
        cases j with
        | zero =>
            rw [Nat.add_zero] at hb
            rw [ha] at hb
            cases Option.some.inj hb
            have ht0 : ((t :: rest).get ⟨0, hj⟩) = t := rfl
            rw [ht0] at hbk hbi
            rcases hpass with hp | hp
            · exact absurd hp hbk
            · exact absurd hp hbi
        | succ j' =>
            have hj' : j' < rest.length := by
              simpa using Nat.lt_of_succ_lt_succ hj
            refine ⟨j', hj', b, ?_, ?_, ?_⟩
            · rw [show i + 1 + j' = i + (j' + 1) from by omega]
              exact hb
            · simpa using hbk
            · simpa using hbi

theorem checkVariadic_pass (fname : String) (typ : GoKind) :
    ∀ (vs : List GoValue) (i : Nat),
      (∀ a ∈ vs, a.kind = typ) →
      checkVariadicArgsAux fname typ vs i = .ok () := by
  intro vs
  induction vs with
  | nil => intro i _; rfl
  | cons a rest ih =>
      intro i h
      simp only [checkVariadicArgsAux]
      rw [if_neg (not_not_intro (h a (by simp)))]
      exact ih (i + 1) (fun x hx => h x (by simp [hx]))

theorem checkVariadic_fail (fname : String) (typ : GoKind) :
    ∀ (vs : List GoValue) (i : Nat),
      (∃ a ∈ vs, a.kind ≠ typ) →
      ∃ m, checkVariadicArgsAux fname typ vs i
        = .error (.argumentTypeMismatch fname m true) := by
  intro vs
  induction vs with
  | nil =>
      rintro i ⟨a, ha, _⟩
      exact absurd ha (List.not_mem_nil a)
  | cons a rest ih =>
      intro i hex
      by_cases h1 : a.kind = typ
      · have hrec : checkVariadicArgsAux fname typ (a :: rest) i
            = checkVariadicArgsAux fname typ rest (i + 1) := by
          simp only [checkVariadicArgsAux]
          rw [if_neg (not_not_intro h1)]
        rw [hrec]
        apply ih (i + 1)
        rcases hex with ⟨b, hb, hbk⟩
        rcases List.mem_cons.mp hb with rfl | hb'
        · exact absurd h1 hbk
        · exact ⟨b, hb', hbk⟩
      · refine ⟨i, ?_⟩
        simp only [checkVariadicArgsAux]
        rw [if_pos h1]

theorem execMethod_eq_traceMethod (ctx : DataContext) (s name : String)
    (obj : GoValue) (args : List GoValue)
    (hh : (splitOnDot s).headD "" = name)
    (ho : ctx.ObjectStore name = some obj)
    (hr : ctx.IsRetracted name = false) :
    (ctx.ExecMethod s args).1 = traceMethod obj (splitOnDot s).tail args := by
  unfold DataContext.ExecMethod
  rw [hh, ho, hr]
  rfl

theorem traceMethod_single (obj : GoValue) (fname : String) (args : List GoValue)
    (types : List GoType) (variad : Bool)
    (hsig : getFunctionParameterTypes obj fname = some (types, variad))
    (hcnt : ¬(types.length ≠ args.length ∧ variad = false)) :
    traceMethod obj [fname] args
      = (match checkFixedArgsAux fname variad types.length args types 0 with
          | .error e => .error e
          | .ok _ =>
              match variadicCheck fname types variad args with
              | .error e => .error e
              | .ok _ => invokeStage obj fname (args.map valueToInterface)) := by
  unfold traceMethod
  rw [hsig]
  simp only []
  rw [if_neg hcnt]

theorem exists_getElem?_of_lt {α : Type} (l : List α) (j : Nat) (h : j < l.length) :
    ∃ a, l[j]? = some a :=
  ⟨l.get ⟨j, h⟩, by rw [List.getElem?_eq_getElem h, List.get_eq_getElem]⟩

/-! ### Claim C5: argument checking in ExecMethod -/

/-- C5: in `ExecMethod` on a path ending in a method, with the fact
present and not retracted and the method's signature `(types, variad)`:
a non-variadic call with the wrong argument count fails with
`ArgumentCountMismatch`; with the count right, a fixed parameter whose
declared kind differs from the argument's kind and is not the generic
`Interface` kind makes the call fail with `ArgumentTypeMismatch`, while
if every fixed parameter's kind matches or is `Interface` the arguments
are coerced and the call proceeds to invocation; for a variadic method
whose fixed parameters all pass, an extra trailing argument whose kind
differs from the variadic element kind fails with
`ArgumentTypeMismatch`. -/
theorem c5_method_argument_checks (ctx : DataContext) (s name fname : String)
    (obj : GoValue) (args : List GoValue) (types : List GoType) (variad : Bool)
    (hs : splitOnDot s = [name, fname])
    (ho : ctx.ObjectStore name = some obj)
    (hr : ctx.IsRetracted name = false)
    (hsig : getFunctionParameterTypes obj fname = some (types, variad)) :
    (variad = false → types.length ≠ args.length →
      (ctx.ExecMethod s args).1
        = .error (.argumentCountMismatch fname types.length args.length))
    ∧ (variad = false → types.length = args.length →
      (∃ j, ∃ (hj : j < types.length), ∃ a, args[j]? = some a
        ∧ (types.get ⟨j, hj⟩).kind ≠ a.kind
        ∧ (types.get ⟨j, hj⟩).kind ≠ GoKind.kInterface) →
      ∃ m, (ctx.ExecMethod s args).1
        = .error (.argumentTypeMismatch fname m false))
    ∧ (variad = false → types.length = args.length →
      (∀ j (hj : j < types.length), ∃ a, args[j]? = some a
        ∧ ((types.get ⟨j, hj⟩).kind = a.kind
          ∨ (types.get ⟨j, hj⟩).kind = GoKind.kInterface)) →
      (ctx.ExecMethod s args).1 = invokeStage obj fname (args.map valueToInterface))
    ∧ (∀ lastT, variad = true → types.getLast? = some lastT →
      (∀ j (hj : j < types.length), j ≠ types.length - 1 →
        ∃ a, args[j]? = some a
        ∧ ((types.get ⟨j, hj⟩).kind = a.kind
          ∨ (types.get ⟨j, hj⟩).kind = GoKind.kInterface)) →
      (∃ b ∈ args.drop (types.length - 1), b.kind ≠ lastT.elem.kind) →
      ∃ m, (ctx.ExecMethod s args).1
        = .error (.argumentTypeMismatch fname m true)) := by
  have hh : (splitOnDot s).headD "" = name := by rw [hs]; rfl
  have htail : (splitOnDot s).tail = [fname] := by rw [hs]; rfl
  have hexec : (ctx.ExecMethod s args).1 = traceMethod obj [fname] args := by
    rw [execMethod_eq_traceMethod ctx s name obj args hh ho hr, htail]
  refine ⟨fun hvf hne => ?_, fun hvf hlen hex => ?_, fun hvf hlen hall => ?_,
    fun lastT hvt hlast hfixh hbad => ?_⟩
  · subst hvf
    rw [hexec]
    unfold traceMethod
    rw [hsig]
    simp only []
    rw [if_pos ⟨hne, by trivial⟩]
  · subst hvf
    obtain ⟨m, hm⟩ := checkFixed_fail fname types.length args types 0
      (fun j hj => by
        rw [Nat.zero_add]
        exact exists_getElem?_of_lt args j (by omega))
      (by
        obtain ⟨j, hj, a, ha, h1, h2⟩ := hex
        exact ⟨j, hj, a, by rw [Nat.zero_add]; exact ha, h1, h2⟩)
    refine ⟨m, ?_⟩
    rw [hexec, traceMethod_single obj fname args types false hsig (by simp [hlen]),
      hm]
  · subst hvf
    have hfix : checkFixedArgsAux fname false types.length args types 0
        = .ok () := by
      apply checkFixed_pass
      intro j hj _
      obtain ⟨a, ha, hk⟩ := hall j hj
      exact ⟨a, by rw [Nat.zero_add]; exact ha, hk⟩
    have hvc : variadicCheck fname types false args = .ok () := rfl
    rw [hexec, traceMethod_single obj fname args types false hsig (by simp [hlen]),
      hfix, hvc]
  · subst hvt
    have hfix : checkFixedArgsAux fname true types.length args types 0
        = .ok () := by
      apply checkFixed_pass
      intro j hj hguard
      have hjne : j ≠ types.length - 1 := by
        intro hj2
        exact hguard ⟨rfl, by omega⟩
      obtain ⟨a, ha, hk⟩ := hfixh j hj hjne
      exact ⟨a, by rw [Nat.zero_add]; exact ha, hk⟩
    obtain ⟨m, hm⟩ := checkVariadic_fail fname lastT.elem.kind
      (args.drop (types.length - 1)) (types.length - 1) hbad
    have hvc : variadicCheck fname types true args
        = .error (.argumentTypeMismatch fname m true) := by
      unfold variadicCheck
      rw [if_pos rfl, hlast]
      exact hm
    refine ⟨m, ?_⟩
    rw [hexec, traceMethod_single obj fname args types true hsig (by simp),
      hfix, hvc]

/-! ### Claim C6: return-value handling in ExecMethod -/

/-- C6: in `ExecMethod`, once all argument checks pass and the method is
invoked, more than one return value yields the `UnsupportedMultiReturn`
error ("multiple return value"), exactly one return value is propagated
with no error, and zero return values yield the nil value with no
error. -/
theorem c6_method_return_values (ctx : DataContext) (s name fname : String)
    (obj : GoValue) (args : List GoValue) (types : List GoType) (variad : Bool)
    (rets : List GoValue)
    (hs : splitOnDot s = [name, fname])
    (ho : ctx.ObjectStore name = some obj)
    (hr : ctx.IsRetracted name = false)
    (hsig : getFunctionParameterTypes obj fname = some (types, variad))
    (hcnt : ¬(types.length ≠ args.length ∧ variad = false))
    (hfix : checkFixedArgsAux fname variad types.length args types 0 = .ok ())
    (hvc : variadicCheck fname types variad args = .ok ())
    (hinv : invokeFunction obj fname (args.map valueToInterface) = some rets) :
    (1 < rets.length →
      (ctx.ExecMethod s args).1 = .error (.multipleReturnValue fname))
    ∧ (∀ r, rets = [r] → (ctx.ExecMethod s args).1 = .ok r)
    ∧ (rets = [] → (ctx.ExecMethod s args).1 = .ok GoValue.vNil) := by
  have hh : (splitOnDot s).headD "" = name := by rw [hs]; rfl
  have htail : (splitOnDot s).tail = [fname] := by rw [hs]; rfl
  have hexec : (ctx.ExecMethod s args).1 = traceMethod obj [fname] args := by
    rw [execMethod_eq_traceMethod ctx s name obj args hh ho hr, htail]
  have hmain : (ctx.ExecMethod s args).1
      = invokeStage obj fname (args.map valueToInterface) := by
    rw [hexec, traceMethod_single obj fname args types variad hsig hcnt, hfix, hvc]
  refine ⟨fun hlen => ?_, fun r hret => ?_, fun hret => ?_⟩
  · rw [hmain]
    unfold invokeStage
    rw [hinv]
    match rets, hlen with
    | r1 :: r2 :: rest, _ => rfl
    | [r1], h => exact absurd h (by simp)
    | [], h => exact absurd h (by simp)
  · subst hret
    rw [hmain]
    unfold invokeStage
    rw [hinv]
  · subst hret
    rw [hmain]
    unfold invokeStage
    rw [hinv]

/-- A fact carrying the methods the C5/C6 witnesses call: `M` takes one
`int`; `V` takes one `int` and then variadic `string`s; `Two`, `One` and
`Zero` take nothing and return two, one and zero values. -/
def mFact : GoValue :=
  GoValue.vPtr (GoValue.vStruct []
    [("M", ([GoType.tInt], false, [])),
      ("V", ([GoType.tInt, GoType.tSlice GoType.tString], true, [])),
      ("Two", ([], false, [GoValue.vInt 1, GoValue.vInt 2])),
      ("One", ([], false, [GoValue.vString "r"])),
      ("Zero", ([], false, []))])

/-- A fact store holding only `"B"`, bound to `mFact`. -/
def mCtx : DataContext :=
  { ObjectStore := fun k => if k = "B" then some mFact else none
    retracted := []
    variableChangeCount := 0
    complete := false }

/-- Witness for C5: `B.M()` with no argument hits the count check,
`B.M("x")` the fixed-kind check, and `B.V(3, 4)` the variadic-kind
check. -/
theorem c5_method_argument_checks_witness :
    (mCtx.ExecMethod "B.M" []).1 = .error (.argumentCountMismatch "M" 1 0)
    ∧ (∃ m, (mCtx.ExecMethod "B.M" [GoValue.vString "x"]).1
        = .error (.argumentTypeMismatch "M" m false))
    ∧ (∃ m, (mCtx.ExecMethod "B.V" [GoValue.vInt 3, GoValue.vInt 4]).1
        = .error (.argumentTypeMismatch "V" m true)) :=
  ⟨(c5_method_argument_checks mCtx "B.M" "B" "M" mFact [] [GoType.tInt] false
      rfl rfl rfl rfl).1 rfl (by decide),
    (c5_method_argument_checks mCtx "B.M" "B" "M" mFact [GoValue.vString "x"]
      [GoType.tInt] false rfl rfl rfl rfl).2.1 rfl (by decide)
      ⟨0, by decide, GoValue.vString "x", rfl, by decide, by decide⟩,
    (c5_method_argument_checks mCtx "B.V" "B" "V" mFact
      [GoValue.vInt 3, GoValue.vInt 4]
      [GoType.tInt, GoType.tSlice GoType.tString] true rfl rfl rfl rfl).2.2.2
      (GoType.tSlice GoType.tString) rfl rfl
      (by
        intro j hj hjne
        match j, hj, hjne with
        | 0, _, _ => exact ⟨GoValue.vInt 3, rfl, Or.inl rfl⟩
        | 1, _, h => exact absurd rfl h)
      ⟨GoValue.vInt 4, by exact List.mem_singleton.mpr rfl, by decide⟩⟩

/-- Witness for C6: `B.Two()` is rejected with the multi-return error,
`B.One()` propagates its single value, `B.Zero()` yields nil. -/
theorem c6_method_return_values_witness :
    (mCtx.ExecMethod "B.Two" []).1 = .error (.multipleReturnValue "Two")
    ∧ (mCtx.ExecMethod "B.One" []).1 = .ok (GoValue.vString "r")
    ∧ (mCtx.ExecMethod "B.Zero" []).1 = .ok GoValue.vNil :=
  ⟨(c6_method_return_values mCtx "B.Two" "B" "Two" mFact [] [] false
      [GoValue.vInt 1, GoValue.vInt 2] rfl rfl rfl rfl (by simp) rfl rfl rfl).1
      (by decide),
    (c6_method_return_values mCtx "B.One" "B" "One" mFact [] [] false
      [GoValue.vString "r"] rfl rfl rfl rfl (by simp) rfl rfl rfl).2.1
      (GoValue.vString "r") rfl,
    (c6_method_return_values mCtx "B.Zero" "B" "Zero" mFact [] [] false
      [] rfl rfl rfl rfl (by simp) rfl rfl rfl).2.2 rfl⟩
